import Mathlib

/-!
Verification of the request-admission and quota-enforcement gateway of
nightlife-mcp.

Part 1 embeds the SQL control plane
(supabase/migrations/20260219094000_mcp_api_keys.sql and the
CREATE OR REPLACE in 20260219124000_..._fix_conflict_target.sql, whose
function body is behaviourally identical): the `mcp_api_keys` table, the
two usage tables, and the functions `consume_mcp_api_request` and
`revoke_user_api_key`, as explicit state passing over association lists.

Part 2 embeds the TypeScript authorization layer
(src/auth/authorize.ts, src/auth/apiKeys.ts) and the /mcp HTTP handler
fragments of src/http.ts that the claims mention.

Modelling conventions:
* uuids are `Nat` on the SQL side; on the TypeScript side ids are the
  strings the RPC row carries.
* SQL `integer` columns are idealized to `Nat` (the schema CHECKs force
  quotas to be NULL or >= 0, and counters start at 1 and only grow;
  31-bit overflow is out of scope for every claim considered).
* `timestamptz` is `Nat` (seconds); `(p_now AT TIME ZONE 'UTC')::date`
  becomes `p_now / 86400` and `date_trunc('minute', p_now)` becomes
  `p_now / 60` - both are the same "truncate to window key" operation.
* The SHA-256 hash is an uninterpreted parameter `hash : String → String`
  of the TypeScript-side functions (crypto is external to the program
  logic; no claim depends on particular hash values).
* Usage tables are association lists keyed by (api_key_id, window key);
  the primary keys of the SQL tables guarantee at most one row per key
  and the upsert helpers preserve that shape.
-/

/-- A row of `public.mcp_api_keys`.  Columns not read by any embedded
function (`key_prefix`, `metadata`, `created_at`, `updated_at`) are
omitted. -/
structure ApiKeyRow where
  id : Nat
  key_name : Option String
  key_hash : String
  tier : String
  status : String
  daily_quota : Option Nat
  per_minute_quota : Option Nat
  user_id : Option Nat
  last_used_at : Option Nat
deriving Repr, DecidableEq

/-- A row of `public.mcp_api_usage_daily` / `mcp_api_usage_minute`
minus its primary-key columns. -/
structure UsageRow where
  request_count : Nat
  updated_at : Nat
deriving Repr, DecidableEq

/-- A usage table: rows keyed by (api_key_id, window key). -/
abbrev UsageTable := List ((Nat × Nat) × UsageRow)

/-- The tables touched by the embedded SQL functions. -/
structure DBState where
  keys : List ApiKeyRow
  usageMinute : UsageTable
  usageDaily : UsageTable
deriving Repr, DecidableEq

/-- Row lookup by primary key (at most one row per key by table
invariant; returns the first match like the underlying index scan). -/
def usageLookup (tbl : UsageTable) (key : Nat × Nat) : Option UsageRow :=
  match tbl with
  | [] => none
  | (k, r) :: rest => if k = key then some r else usageLookup rest key

/-- Write a row at a primary key: update in place if present, append
otherwise. -/
def usageSet (tbl : UsageTable) (key : Nat × Nat) (row : UsageRow) : UsageTable :=
  match tbl with
  | [] => [(key, row)]
  | (k, r) :: rest =>
    if k = key then (k, row) :: rest else (k, r) :: usageSet rest key row

/-- `INSERT ... VALUES (key, 1, now) ON CONFLICT DO UPDATE SET
request_count = request_count + 1, updated_at = now RETURNING
request_count` - the unconditional upsert used when the quota is NULL.
Returns the RETURNING value and the new table. -/
def upsertIncrement (tbl : UsageTable) (key : Nat × Nat) (now : Nat) :
    Nat × UsageTable :=
  match usageLookup tbl key with
  | none => (1, usageSet tbl key { request_count := 1, updated_at := now })
  | some r =>
    (r.request_count + 1,
     usageSet tbl key { request_count := r.request_count + 1, updated_at := now })

/-- The guarded upsert used when the quota is a finite integer:
`INSERT ... ON CONFLICT DO UPDATE ... WHERE request_count < quota
RETURNING request_count`.  When no row exists the INSERT arm fires and
stores count 1 irrespective of the quota (the WHERE guard only filters
the UPDATE arm); when a row exists the UPDATE fires only below quota,
and otherwise nothing changes and RETURNING produces no row (`none`). -/
def upsertIncrementIfBelow (tbl : UsageTable) (key : Nat × Nat) (quota : Nat)
    (now : Nat) : Option Nat × UsageTable :=
  match usageLookup tbl key with
  | none => (some 1, usageSet tbl key { request_count := 1, updated_at := now })
  | some r =>
    if r.request_count < quota then
      (some (r.request_count + 1),
       usageSet tbl key { request_count := r.request_count + 1, updated_at := now })
    else
      (none, tbl)

/-- `SELECT * FROM mcp_api_keys WHERE key_hash = p LIMIT 1`. -/
def findKey (keys : List ApiKeyRow) (h : String) : Option ApiKeyRow :=
  keys.find? (fun k => k.key_hash == h)

/-- `UPDATE mcp_api_keys SET last_used_at = p_now WHERE id = kid`. -/
def touchLastUsed (keys : List ApiKeyRow) (kid : Nat) (now : Nat) :
    List ApiKeyRow :=
  keys.map (fun r => if r.id = kid then { r with last_used_at := some now } else r)

/-- The row type returned by `consume_mcp_api_request`. -/
structure ConsumeRow where
  allowed : Bool
  reason : String
  api_key_id : Option Nat
  key_name : Option String
  tier : Option String
  daily_quota : Option Nat
  daily_count : Option Nat
  per_minute_quota : Option Nat
  minute_count : Option Nat
deriving Repr, DecidableEq

/-- The daily phase of `consume_mcp_api_request` (the code from
`IF v_key.daily_quota IS NULL` to the end), entered after the minute
check admitted with post-increment minute count `mc` and new minute
table `mtbl`.  On a daily denial the minute increment persists and the
daily table is untouched. -/
def consumeDaily (st : DBState) (k : ApiKeyRow) (vDay : Nat) (mc : Nat)
    (mtbl : UsageTable) (p_now : Nat) : ConsumeRow × DBState :=
  let finish : Nat → UsageTable → ConsumeRow × DBState := fun dc dtbl =>
    ({ allowed := true, reason := "ok", api_key_id := some k.id,
       key_name := k.key_name, tier := some k.tier,
       daily_quota := k.daily_quota, daily_count := some dc,
       per_minute_quota := k.per_minute_quota, minute_count := some mc },
     { keys := touchLastUsed st.keys k.id p_now,
       usageMinute := mtbl, usageDaily := dtbl })
  match k.daily_quota with
  | none =>
    let r := upsertIncrement st.usageDaily (k.id, vDay) p_now
    finish r.1 r.2
  | some q =>
    match upsertIncrementIfBelow st.usageDaily (k.id, vDay) q p_now with
    | (some dc, dtbl) => finish dc dtbl
    | (none, _) =>
      ({ allowed := false, reason := "daily_limit_exceeded",
         api_key_id := some k.id, key_name := k.key_name,
         tier := some k.tier, daily_quota := k.daily_quota,
         daily_count := (usageLookup st.usageDaily (k.id, vDay)).map
           (fun r => r.request_count),
         per_minute_quota := k.per_minute_quota, minute_count := some mc },
       { st with usageMinute := mtbl })

/-- `public.consume_mcp_api_request(p_key_hash, p_now)`: key lookup,
status check, guarded minute-window increment, guarded daily-window
increment, `last_used_at` touch.  Returns the single result row and the
post-call database state. -/
def consume_mcp_api_request (st : DBState) (p_key_hash : String)
    (p_now : Nat) : ConsumeRow × DBState :=
  match findKey st.keys p_key_hash with
  | none =>
    ({ allowed := false, reason := "invalid_key", api_key_id := none,
       key_name := none, tier := none, daily_quota := none,
       daily_count := none, per_minute_quota := none, minute_count := none },
     st)
  | some k =>
    if k.status ≠ "active" then
      ({ allowed := false, reason := "revoked_key", api_key_id := some k.id,
         key_name := k.key_name, tier := some k.tier,
         daily_quota := k.daily_quota, daily_count := none,
         per_minute_quota := k.per_minute_quota, minute_count := none },
       st)
    else
      let vDay := p_now / 86400
      let vMinute := p_now / 60
      match k.per_minute_quota with
      | none =>
        let r := upsertIncrement st.usageMinute (k.id, vMinute) p_now
        consumeDaily st k vDay r.1 r.2 p_now
      | some q =>
        match upsertIncrementIfBelow st.usageMinute (k.id, vMinute) q p_now with
        | (some mc, mtbl) => consumeDaily st k vDay mc mtbl p_now
        | (none, _) =>
          ({ allowed := false, reason := "minute_limit_exceeded",
             api_key_id := some k.id, key_name := k.key_name,
             tier := some k.tier, daily_quota := k.daily_quota,
             daily_count := none, per_minute_quota := k.per_minute_quota,
             minute_count := (usageLookup st.usageMinute (k.id, vMinute)).map
               (fun r => r.request_count) },
           st)

/-- The `WHERE` clause of the `UPDATE` in `revoke_user_api_key`:
`id = p_key_id AND user_id = uid AND status = 'active'`. -/
def revokeHit (uid p_key_id : Nat) (k : ApiKeyRow) : Bool :=
  k.id == p_key_id && k.user_id == some uid && k.status == "active"

/-- `public.revoke_user_api_key(p_key_id)` run as user `uid`:
`UPDATE ... SET status = 'revoked' WHERE id = p AND user_id = uid AND
status = 'active'`, returning `FOUND`. -/
def revoke_user_api_key (st : DBState) (uid : Nat) (p_key_id : Nat) :
    Bool × DBState :=
  (st.keys.any (revokeHit uid p_key_id),
   { st with keys := st.keys.map (fun k =>
       if revokeHit uid p_key_id k then { k with status := "revoked" } else k) })

/-- `n` sequential calls of `consume_mcp_api_request` with one hash and
one timestamp; returns the result rows in call order and the final
state. -/
def consumeTrace (st : DBState) (h : String) (now : Nat) :
    Nat → List ConsumeRow × DBState
  | 0 => ([], st)
  | n + 1 =>
    let prev := consumeTrace st h now n
    let step := consume_mcp_api_request prev.2 h now
    (prev.1 ++ [step.1], step.2)

/-- Number of admitted calls in a list of result rows. -/
def countAllowed (rows : List ConsumeRow) : Nat :=
  rows.countP (fun r => r.allowed)

/-- The stored `request_count` of a minute-window row, `none` when the
row does not exist. -/
def storedMinuteCount (st : DBState) (kid m : Nat) : Option Nat :=
  (usageLookup st.usageMinute (kid, m)).map (fun r => r.request_count)

/-- The stored `request_count` of a daily-window row. -/
def storedDailyCount (st : DBState) (kid d : Nat) : Option Nat :=
  (usageLookup st.usageDaily (kid, d)).map (fun r => r.request_count)

/-! ## Window characterization for repeated consumption (claim C1)

For a single active key with one bounded window and the other window
unlimited, the state reached after `n` calls in one window has a closed
form; the lemmas below establish it for the bounded-minute and the
bounded-day configurations. -/

/-- The `allowed = true` result row with post-increment daily count `d`
and minute count `m`. -/
def consumeOkRow (k : ApiKeyRow) (d m : Nat) : ConsumeRow :=
  { allowed := true, reason := "ok", api_key_id := some k.id,
    key_name := k.key_name, tier := some k.tier, daily_quota := k.daily_quota,
    daily_count := some d, per_minute_quota := k.per_minute_quota,
    minute_count := some m }

/-- The minute-limit denial row carrying the unchanged minute count `m`. -/
def consumeMinuteDeniedRow (k : ApiKeyRow) (m : Nat) : ConsumeRow :=
  { allowed := false, reason := "minute_limit_exceeded",
    api_key_id := some k.id, key_name := k.key_name, tier := some k.tier,
    daily_quota := k.daily_quota, daily_count := none,
    per_minute_quota := k.per_minute_quota, minute_count := some m }

/-- The daily-limit denial row carrying the unchanged daily count `d`
and the already-incremented minute count `m`. -/
def consumeDailyDeniedRow (k : ApiKeyRow) (d m : Nat) : ConsumeRow :=
  { allowed := false, reason := "daily_limit_exceeded",
    api_key_id := some k.id, key_name := k.key_name, tier := some k.tier,
    daily_quota := k.daily_quota, daily_count := some d,
    per_minute_quota := k.per_minute_quota, minute_count := some m }

/-- State of a one-key database after some same-timestamp traffic:
minute-window count `m`, daily-window count `c`, `last_used_at`
touched. -/
def oneKeyState (k : ApiKeyRow) (now : Nat) (m c : Nat) : DBState :=
  { keys := [{ k with last_used_at := some now }],
    usageMinute := [((k.id, now / 60), { request_count := m, updated_at := now })],
    usageDaily := [((k.id, now / 86400), { request_count := c, updated_at := now })] }

theorem consume_fresh_min (k : ApiKeyRow) (Q now : Nat)
    (hact : k.status = "active") (hm : k.per_minute_quota = some Q)
    (hd : k.daily_quota = none) :
    consume_mcp_api_request ⟨[k], [], []⟩ k.key_hash now =
      (consumeOkRow k 1 1, oneKeyState k now 1 1) := by
  simp [consume_mcp_api_request, findKey, consumeDaily, upsertIncrement,
    upsertIncrementIfBelow, usageLookup, usageSet, touchLastUsed,
    consumeOkRow, oneKeyState, hact, hm, hd]

theorem consume_minq_step_lt (k : ApiKeyRow) (Q now c : Nat)
    (hact : k.status = "active") (hm : k.per_minute_quota = some Q)
    (hd : k.daily_quota = none) (hc : c < Q) :
    consume_mcp_api_request (oneKeyState k now c c) k.key_hash now =
      (consumeOkRow k (c + 1) (c + 1), oneKeyState k now (c + 1) (c + 1)) := by
  simp [consume_mcp_api_request, findKey, consumeDaily, upsertIncrement,
    upsertIncrementIfBelow, usageLookup, usageSet, touchLastUsed,
    consumeOkRow, oneKeyState, hact, hm, hd, hc]

theorem consume_minq_step_ge (k : ApiKeyRow) (Q now c : Nat)
    (hact : k.status = "active") (hm : k.per_minute_quota = some Q)
    (hd : k.daily_quota = none) (hc : ¬ c < Q) :
    consume_mcp_api_request (oneKeyState k now c c) k.key_hash now =
      (consumeMinuteDeniedRow k c, oneKeyState k now c c) := by
  simp [consume_mcp_api_request, findKey, consumeDaily, upsertIncrement,
    upsertIncrementIfBelow, usageLookup, usageSet, touchLastUsed,
    consumeMinuteDeniedRow, oneKeyState, hact, hm, hd, hc]

theorem consume_fresh_day (k : ApiKeyRow) (Q now : Nat)
    (hact : k.status = "active") (hm : k.per_minute_quota = none)
    (hd : k.daily_quota = some Q) :
    consume_mcp_api_request ⟨[k], [], []⟩ k.key_hash now =
      (consumeOkRow k 1 1, oneKeyState k now 1 1) := by
  simp [consume_mcp_api_request, findKey, consumeDaily, upsertIncrement,
    upsertIncrementIfBelow, usageLookup, usageSet, touchLastUsed,
    consumeOkRow, oneKeyState, hact, hm, hd]

theorem consume_dayq_step_lt (k : ApiKeyRow) (Q now m c : Nat)
    (hact : k.status = "active") (hm : k.per_minute_quota = none)
    (hd : k.daily_quota = some Q) (hc : c < Q) :
    consume_mcp_api_request (oneKeyState k now m c) k.key_hash now =
      (consumeOkRow k (c + 1) (m + 1), oneKeyState k now (m + 1) (c + 1)) := by
  simp [consume_mcp_api_request, findKey, consumeDaily, upsertIncrement,
    upsertIncrementIfBelow, usageLookup, usageSet, touchLastUsed,
    consumeOkRow, oneKeyState, hact, hm, hd, hc]

theorem consume_dayq_step_ge (k : ApiKeyRow) (Q now m c : Nat)
    (hact : k.status = "active") (hm : k.per_minute_quota = none)
    (hd : k.daily_quota = some Q) (hc : ¬ c < Q) :
    consume_mcp_api_request (oneKeyState k now m c) k.key_hash now =
      (consumeDailyDeniedRow k c (m + 1), oneKeyState k now (m + 1) c) := by
  simp [consume_mcp_api_request, findKey, consumeDaily, upsertIncrement,
    upsertIncrementIfBelow, usageLookup, usageSet, touchLastUsed,
    consumeDailyDeniedRow, oneKeyState, hact, hm, hd, hc]

theorem countAllowed_append (xs : List ConsumeRow) (r : ConsumeRow) :
    countAllowed (xs ++ [r]) = countAllowed xs + (if r.allowed then 1 else 0) := by
  simp [countAllowed, List.countP_append, List.countP_cons]

/-- After `n ≥ 1` calls with minute quota `Q ≥ 1` and unlimited daily
quota, both stored counts are `min n Q` and `min n Q` calls were
admitted. -/
theorem minq_trace_spec (k : ApiKeyRow) (Q now : Nat)
    (hact : k.status = "active") (hm : k.per_minute_quota = some Q)
    (hd : k.daily_quota = none) (hQ : 1 ≤ Q) :
    ∀ n, 1 ≤ n →
      (consumeTrace ⟨[k], [], []⟩ k.key_hash now n).2 =
        oneKeyState k now (min n Q) (min n Q)
      ∧ countAllowed (consumeTrace ⟨[k], [], []⟩ k.key_hash now n).1 = min n Q := by
  intro n hn
  induction n with
  | zero => omega
  | succ m ih =>
    by_cases hm0 : m = 0
    · subst hm0
      have h1 : min 1 Q = 1 := by omega
      simp [consumeTrace, consume_fresh_min k Q now hact hm hd, h1,
        countAllowed, List.countP_cons, consumeOkRow]
    · have hm1 : 1 ≤ m := by omega
      obtain ⟨hst, hcnt⟩ := ih hm1
      by_cases hlt : m < Q
      · have hmin : min m Q = m := by omega
        rw [hmin] at hst hcnt
        simp only [consumeTrace, hst,
          consume_minq_step_lt k Q now m hact hm hd hlt]
        constructor
        · have h2 : min (m + 1) Q = m + 1 := by omega
          rw [h2]
        · rw [countAllowed_append, hcnt]
          simp [consumeOkRow]
          omega
      · have hmin : min m Q = Q := by omega
        rw [hmin] at hst hcnt
        have hge : ¬ Q < Q := by omega
        simp only [consumeTrace, hst,
          consume_minq_step_ge k Q now Q hact hm hd hge]
        constructor
        · have h2 : min (m + 1) Q = Q := by omega
          rw [h2]
        · rw [countAllowed_append, hcnt]
          simp [consumeMinuteDeniedRow]
          omega

/-- After `n ≥ 1` calls with daily quota `Q ≥ 1` and unlimited minute
quota, the stored minute count is `n` (charged even on denials), the
stored daily count is `min n Q`, and `min n Q` calls were admitted. -/
theorem dayq_trace_spec (k : ApiKeyRow) (Q now : Nat)
    (hact : k.status = "active") (hm : k.per_minute_quota = none)
    (hd : k.daily_quota = some Q) (hQ : 1 ≤ Q) :
    ∀ n, 1 ≤ n →
      (consumeTrace ⟨[k], [], []⟩ k.key_hash now n).2 =
        oneKeyState k now n (min n Q)
      ∧ countAllowed (consumeTrace ⟨[k], [], []⟩ k.key_hash now n).1 = min n Q := by
  intro n hn
  induction n with
  | zero => omega
  | succ m ih =>
    by_cases hm0 : m = 0
    · subst hm0
      have h1 : min 1 Q = 1 := by omega
      simp [consumeTrace, consume_fresh_day k Q now hact hm hd, h1,
        countAllowed, List.countP_cons, consumeOkRow]
    · have hm1 : 1 ≤ m := by omega
      obtain ⟨hst, hcnt⟩ := ih hm1
      by_cases hlt : m < Q
      · have hmin : min m Q = m := by omega
        rw [hmin] at hst hcnt
        simp only [consumeTrace, hst,
          consume_dayq_step_lt k Q now m m hact hm hd hlt]
        constructor
        · have h2 : min (m + 1) Q = m + 1 := by omega
          rw [h2]
        · rw [countAllowed_append, hcnt]
          simp [consumeOkRow]
          omega
      · have hmin : min m Q = Q := by omega
        rw [hmin] at hst hcnt
        have hge : ¬ Q < Q := by omega
        simp only [consumeTrace, hst,
          consume_dayq_step_ge k Q now m Q hact hm hd hge]
        constructor
        · have h2 : min (m + 1) Q = Q := by omega
          rw [h2]
        · rw [countAllowed_append, hcnt]
          simp [consumeDailyDeniedRow]
          omega

theorem consume_fresh_both (k : ApiKeyRow) (Qm Qd now : Nat)
    (hact : k.status = "active") (hm : k.per_minute_quota = some Qm)
    (hd : k.daily_quota = some Qd) :
    consume_mcp_api_request ⟨[k], [], []⟩ k.key_hash now =
      (consumeOkRow k 1 1, oneKeyState k now 1 1) := by
  simp [consume_mcp_api_request, findKey, consumeDaily, upsertIncrement,
    upsertIncrementIfBelow, usageLookup, usageSet, touchLastUsed,
    consumeOkRow, oneKeyState, hact, hm, hd]

theorem consume_bothq_step_ok (k : ApiKeyRow) (Qm Qd now m c : Nat)
    (hact : k.status = "active") (hm : k.per_minute_quota = some Qm)
    (hd : k.daily_quota = some Qd) (hmlt : m < Qm) (hclt : c < Qd) :
    consume_mcp_api_request (oneKeyState k now m c) k.key_hash now =
      (consumeOkRow k (c + 1) (m + 1), oneKeyState k now (m + 1) (c + 1)) := by
  simp [consume_mcp_api_request, findKey, consumeDaily, upsertIncrement,
    upsertIncrementIfBelow, usageLookup, usageSet, touchLastUsed,
    consumeOkRow, oneKeyState, hact, hm, hd, hmlt, hclt]

theorem consume_bothq_step_daily_denied (k : ApiKeyRow) (Qm Qd now m c : Nat)
    (hact : k.status = "active") (hm : k.per_minute_quota = some Qm)
    (hd : k.daily_quota = some Qd) (hmlt : m < Qm) (hcge : ¬ c < Qd) :
    consume_mcp_api_request (oneKeyState k now m c) k.key_hash now =
      (consumeDailyDeniedRow k c (m + 1), oneKeyState k now (m + 1) c) := by
  simp [consume_mcp_api_request, findKey, consumeDaily, upsertIncrement,
    upsertIncrementIfBelow, usageLookup, usageSet, touchLastUsed,
    consumeDailyDeniedRow, oneKeyState, hact, hm, hd, hmlt, hcge]

theorem consume_bothq_step_minute_denied (k : ApiKeyRow) (Qm now m c : Nat)
    (hact : k.status = "active") (hm : k.per_minute_quota = some Qm)
    (hmge : ¬ m < Qm) :
    consume_mcp_api_request (oneKeyState k now m c) k.key_hash now =
      (consumeMinuteDeniedRow k m, oneKeyState k now m c) := by
  simp [consume_mcp_api_request, findKey, consumeDaily, upsertIncrement,
    upsertIncrementIfBelow, usageLookup, usageSet, touchLastUsed,
    consumeMinuteDeniedRow, oneKeyState, hact, hm, hmge]

/-- After `n ≥ 1` calls with minute quota `Qm ≥ 1` and daily quota
`Qd ≥ 1`, the stored minute count is `min n Qm`, the stored daily count
is `min (min n Qm) Qd` (the daily window is charged only for
minute-admitted calls), and `min (min n Qm) Qd` calls were admitted. -/
theorem bothq_trace_spec (k : ApiKeyRow) (Qm Qd now : Nat)
    (hact : k.status = "active") (hm : k.per_minute_quota = some Qm)
    (hd : k.daily_quota = some Qd) (hQm : 1 ≤ Qm) (hQd : 1 ≤ Qd) :
    ∀ n, 1 ≤ n →
      (consumeTrace ⟨[k], [], []⟩ k.key_hash now n).2 =
        oneKeyState k now (min n Qm) (min (min n Qm) Qd)
      ∧ countAllowed (consumeTrace ⟨[k], [], []⟩ k.key_hash now n).1 =
        min (min n Qm) Qd := by
  intro n hn
  induction n with
  | zero => omega
  | succ p ih =>
    by_cases hp0 : p = 0
    · subst hp0
      have h1 : min 1 Qm = 1 := by omega
      have h2 : min 1 Qd = 1 := by omega
      simp [consumeTrace, consume_fresh_both k Qm Qd now hact hm hd, h1, h2,
        countAllowed, List.countP_cons, consumeOkRow]
    · have hp1 : 1 ≤ p := by omega
      obtain ⟨hst, hcnt⟩ := ih hp1
      by_cases hmlt : p < Qm
      · have hminm : min p Qm = p := by omega
        rw [hminm] at hst hcnt
        by_cases hdlt : p < Qd
        · have hmind : min p Qd = p := by omega
          rw [hmind] at hst hcnt
          simp only [consumeTrace, hst,
            consume_bothq_step_ok k Qm Qd now p p hact hm hd hmlt hdlt]
          constructor
          · have e1 : min (p + 1) Qm = p + 1 := by omega
            have e2 : min (p + 1) Qd = p + 1 := by omega
            rw [e1, e2]
          · rw [countAllowed_append, hcnt]
            simp [consumeOkRow]
            omega
        · have hmind : min p Qd = Qd := by omega
          rw [hmind] at hst hcnt
          have hge : ¬ Qd < Qd := by omega
          simp only [consumeTrace, hst,
            consume_bothq_step_daily_denied k Qm Qd now p Qd hact hm hd hmlt hge]
          constructor
          · have e1 : min (p + 1) Qm = p + 1 := by omega
            have e2 : min (p + 1) Qd = Qd := by omega
            rw [e1, e2]
          · rw [countAllowed_append, hcnt]
            simp [consumeDailyDeniedRow]
            omega
      · have hminm : min p Qm = Qm := by omega
        rw [hminm] at hst hcnt
        have hge : ¬ Qm < Qm := by omega
        simp only [consumeTrace, hst,
          consume_bothq_step_minute_denied k Qm now Qm (min Qm Qd) hact hm hge]
        constructor
        · have e1 : min (p + 1) Qm = Qm := by omega
          rw [e1]
        · rw [countAllowed_append, hcnt]
          simp [consumeMinuteDeniedRow]
          omega

theorem usageLookup_usageSet (tbl : UsageTable) (key : Nat × Nat) (row : UsageRow) :
    usageLookup (usageSet tbl key row) key = some row := by
  induction tbl with
  | nil => simp [usageSet, usageLookup]
  | cons hd tl ih =>
    by_cases h : hd.1 = key
    · simp [usageSet, usageLookup, h]
    · simp [usageSet, usageLookup, h, ih]

theorem storedMinuteCount_oneKeyState (k : ApiKeyRow) (now m c : Nat) :
    storedMinuteCount (oneKeyState k now m c) k.id (now / 60) = some m := by
  simp [storedMinuteCount, oneKeyState, usageLookup]

theorem storedDailyCount_oneKeyState (k : ApiKeyRow) (now m c : Nat) :
    storedDailyCount (oneKeyState k now m c) k.id (now / 86400) = some c := by
  simp [storedDailyCount, oneKeyState, usageLookup]

/-- Claim C1 (amended: bounded quota `Q ≥ 1`).  For an active credential
whose bounded window has quota `Q ≥ 1` (the other window unlimited), no
number `n` of `consume_mcp_api_request` calls in one window drives the
stored `request_count` of that window above `Q`; the count `Q` itself is
reached after `Q` calls, and of `n` calls exactly `min n Q` are
admitted.  Both bounded-window placements (minute and day) are covered,
and a third conjunct covers credentials where both windows are bounded:
neither stored count ever exceeds its quota and exactly
`min (min n Q) Qd` calls are admitted.
For `Q = 0` the claim fails, see the counterexample. -/
theorem consume_bounded_window_never_exceeds_quota (Q now : Nat) (hQ : 1 ≤ Q) :
    (∀ k : ApiKeyRow, k.status = "active" → k.per_minute_quota = some Q →
      k.daily_quota = none →
      (∀ n c, storedMinuteCount (consumeTrace ⟨[k], [], []⟩ k.key_hash now n).2
          k.id (now / 60) = some c → c ≤ Q)
      ∧ storedMinuteCount (consumeTrace ⟨[k], [], []⟩ k.key_hash now Q).2
          k.id (now / 60) = some Q
      ∧ (∀ n, countAllowed (consumeTrace ⟨[k], [], []⟩ k.key_hash now n).1 =
          min n Q))
    ∧ (∀ k : ApiKeyRow, k.status = "active" → k.per_minute_quota = none →
      k.daily_quota = some Q →
      (∀ n c, storedDailyCount (consumeTrace ⟨[k], [], []⟩ k.key_hash now n).2
          k.id (now / 86400) = some c → c ≤ Q)
      ∧ storedDailyCount (consumeTrace ⟨[k], [], []⟩ k.key_hash now Q).2
          k.id (now / 86400) = some Q
      ∧ (∀ n, countAllowed (consumeTrace ⟨[k], [], []⟩ k.key_hash now n).1 =
          min n Q))
    ∧ (∀ k : ApiKeyRow, ∀ Qd : Nat, k.status = "active" →
      k.per_minute_quota = some Q → k.daily_quota = some Qd → 1 ≤ Qd →
      (∀ n c, storedMinuteCount (consumeTrace ⟨[k], [], []⟩ k.key_hash now n).2
          k.id (now / 60) = some c → c ≤ Q)
      ∧ (∀ n c, storedDailyCount (consumeTrace ⟨[k], [], []⟩ k.key_hash now n).2
          k.id (now / 86400) = some c → c ≤ Qd)
      ∧ (∀ n, countAllowed (consumeTrace ⟨[k], [], []⟩ k.key_hash now n).1 =
          min (min n Q) Qd)) := by
  refine ⟨?_, ?_, ?_⟩
  · intro k hact hm hd
    refine ⟨?_, ?_, ?_⟩
    · intro n c hc
      match n with
      | 0 =>
        simp [consumeTrace, storedMinuteCount, usageLookup] at hc
      | m + 1 =>
        have hs := (minq_trace_spec k Q now hact hm hd hQ (m + 1) (by omega)).1
        rw [hs, storedMinuteCount_oneKeyState] at hc
        simp only [Option.some.injEq] at hc
        omega
    · have hs := (minq_trace_spec k Q now hact hm hd hQ Q hQ).1
      rw [hs, storedMinuteCount_oneKeyState, Nat.min_self]
    · intro n
      match n with
      | 0 => simp [consumeTrace, countAllowed]
      | m + 1 => exact (minq_trace_spec k Q now hact hm hd hQ (m + 1) (by omega)).2
  · intro k hact hm hd
    refine ⟨?_, ?_, ?_⟩
    · intro n c hc
      match n with
      | 0 =>
        simp [consumeTrace, storedDailyCount, usageLookup] at hc
      | m + 1 =>
        have hs := (dayq_trace_spec k Q now hact hm hd hQ (m + 1) (by omega)).1
        rw [hs, storedDailyCount_oneKeyState] at hc
        simp only [Option.some.injEq] at hc
        omega
    · have hs := (dayq_trace_spec k Q now hact hm hd hQ Q hQ).1
      rw [hs, storedDailyCount_oneKeyState, Nat.min_self]
    · intro n
      match n with
      | 0 => simp [consumeTrace, countAllowed]
      | m + 1 => exact (dayq_trace_spec k Q now hact hm hd hQ (m + 1) (by omega)).2
  · intro k Qd hact hm hd hQd
    refine ⟨?_, ?_, ?_⟩
    · intro n c hc
      match n with
      | 0 =>
        simp [consumeTrace, storedMinuteCount, usageLookup] at hc
      | m + 1 =>
        have hs := (bothq_trace_spec k Q Qd now hact hm hd hQ hQd (m + 1)
          (by omega)).1
        rw [hs, storedMinuteCount_oneKeyState] at hc
        simp only [Option.some.injEq] at hc
        omega
    · intro n c hc
      match n with
      | 0 =>
        simp [consumeTrace, storedDailyCount, usageLookup] at hc
      | m + 1 =>
        have hs := (bothq_trace_spec k Q Qd now hact hm hd hQ hQd (m + 1)
          (by omega)).1
        rw [hs, storedDailyCount_oneKeyState] at hc
        simp only [Option.some.injEq] at hc
        omega
    · intro n
      match n with
      | 0 => simp [consumeTrace, countAllowed]
      | m + 1 =>
        exact (bothq_trace_spec k Q Qd now hact hm hd hQ hQd (m + 1) (by omega)).2

/-- Active key with minute quota 2 and no daily quota, used to witness
the bounded-minute-window part of claim C1. -/
def c1TestKeyMin : ApiKeyRow :=
  { id := 7, key_name := some "min", key_hash := "hash-min", tier := "free",
    status := "active", daily_quota := none, per_minute_quota := some 2,
    user_id := none, last_used_at := none }

/-- Witness for claim C1 at quota 2: after 5 calls in one minute window
the stored count is 2 (never 3, 4, 5) and exactly min 5 2 = 2 calls were
admitted. -/
theorem consume_bounded_window_never_exceeds_quota_witness :
    storedMinuteCount
      (consumeTrace ⟨[c1TestKeyMin], [], []⟩ c1TestKeyMin.key_hash 0 2).2
      c1TestKeyMin.id (0 / 60) = some 2
    ∧ countAllowed
      (consumeTrace ⟨[c1TestKeyMin], [], []⟩ c1TestKeyMin.key_hash 0 5).1 =
      min 5 2 := by
  have h :=
    (consume_bounded_window_never_exceeds_quota 2 0 (by decide)).1
      c1TestKeyMin rfl rfl rfl
  exact ⟨h.2.1, h.2.2 5⟩

/-- Active key with minute quota 0 (permitted by the schema CHECK
`per_minute_quota >= 0`), exhibiting the failure of claim C1 at
quota 0. -/
def c1ZeroQuotaKey : ApiKeyRow :=
  { id := 9, key_name := some "zero", key_hash := "hash-zero", tier := "free",
    status := "active", daily_quota := none, per_minute_quota := some 0,
    user_id := none, last_used_at := none }

/-- Counterexample to claim C1 as stated: with bounded minute quota 0,
the very first call in a window is admitted through the INSERT arm of
the upsert (the `WHERE request_count < quota` guard only filters the
UPDATE arm), so the stored count becomes 1 > 0 and 1 ≠ min 1 0 = 0 calls
are admitted. -/
theorem consume_bounded_window_never_exceeds_quota_counterexample :
    c1ZeroQuotaKey.per_minute_quota = some 0
    ∧ storedMinuteCount
        (consumeTrace ⟨[c1ZeroQuotaKey], [], []⟩ c1ZeroQuotaKey.key_hash 0 1).2
        c1ZeroQuotaKey.id (0 / 60) = some 1
    ∧ ¬ (1 ≤ 0)
    ∧ countAllowed
        (consumeTrace ⟨[c1ZeroQuotaKey], [], []⟩ c1ZeroQuotaKey.key_hash 0 1).1 = 1
    ∧ min 1 0 = 0 := by
  decide

/-- Active key with daily quota 2 and unlimited minute quota - the
scenario credential of claim C2. -/
def c2ScenarioKey : ApiKeyRow :=
  { id := 11, key_name := some "c2", key_hash := "hash-c2", tier := "free",
    status := "active", daily_quota := some 2, per_minute_quota := none,
    user_id := none, last_used_at := none }

/-- Claim C2: for an active credential with finite daily quota `Q`,
unlimited minute quota, and an existing daily row at count `c`, a call
increments the daily counter only when `c < Q` (then allowed, returned
daily count `c + 1`); at `c = Q` the daily counter is untouched, the
decision is `daily_limit_exceeded`, and the returned daily count is the
unchanged `c`.  With quota 2, three same-day calls from a fresh state
give allowed(1), allowed(2), denied(daily_limit_exceeded, 2). -/
theorem consume_daily_conditional_increment (st : DBState) (h : String)
    (k : ApiKeyRow) (Q c u now : Nat)
    (hfind : findKey st.keys h = some k)
    (hact : k.status = "active")
    (hmq : k.per_minute_quota = none)
    (hdq : k.daily_quota = some Q)
    (hrow : usageLookup st.usageDaily (k.id, now / 86400) =
      some { request_count := c, updated_at := u }) :
    (c < Q →
      consume_mcp_api_request st h now =
        (consumeOkRow k (c + 1)
           (upsertIncrement st.usageMinute (k.id, now / 60) now).1,
         { keys := touchLastUsed st.keys k.id now,
           usageMinute := (upsertIncrement st.usageMinute (k.id, now / 60) now).2,
           usageDaily := usageSet st.usageDaily (k.id, now / 86400)
             { request_count := c + 1, updated_at := now } }))
    ∧ (c = Q →
      consume_mcp_api_request st h now =
        (consumeDailyDeniedRow k c
           (upsertIncrement st.usageMinute (k.id, now / 60) now).1,
         { st with usageMinute :=
             (upsertIncrement st.usageMinute (k.id, now / 60) now).2 }))
    ∧ (consumeTrace ⟨[c2ScenarioKey], [], []⟩ c2ScenarioKey.key_hash 0 3).1 =
        [consumeOkRow c2ScenarioKey 1 1, consumeOkRow c2ScenarioKey 2 2,
         consumeDailyDeniedRow c2ScenarioKey 2 3] := by
  refine ⟨?_, ?_, by decide⟩
  · intro hc
    simp [consume_mcp_api_request, hfind, hact, hmq, hdq, consumeDaily,
      upsertIncrementIfBelow, hrow, hc, consumeOkRow]
  · intro hc
    subst hc
    have hnot : ¬ (c < c) := by omega
    simp [consume_mcp_api_request, hfind, hact, hmq, hdq, consumeDaily,
      upsertIncrementIfBelow, hrow, hnot, consumeDailyDeniedRow]

/-- Witness for claim C2: with daily quota 2 and an existing daily row
at count 1, the call is admitted and reports daily count 2. -/
theorem consume_daily_conditional_increment_witness :
    (consume_mcp_api_request
      ⟨[c2ScenarioKey], [],
       [((c2ScenarioKey.id, 0), { request_count := 1, updated_at := 0 })]⟩
      c2ScenarioKey.key_hash 0).1 = consumeOkRow c2ScenarioKey 2 1 := by
  have h :=
    (consume_daily_conditional_increment
      ⟨[c2ScenarioKey], [],
       [((c2ScenarioKey.id, 0), { request_count := 1, updated_at := 0 })]⟩
      c2ScenarioKey.key_hash c2ScenarioKey 2 1 0 0
      (by decide) rfl rfl rfl (by decide)).1 (by decide)
  rw [h]
  decide

/-- Claim C3: when the minute check admits (existing minute row `m` with
`m < Qm`) but the daily check denies (existing daily row `c` with
`c ≥ Qd`), the call returns `daily_limit_exceeded` carrying the
unchanged daily count `c` together with the already-incremented minute
count `m + 1`, and the minute-window charge persists in the state. -/
theorem consume_daily_denial_keeps_minute_charge (st : DBState) (h : String)
    (k : ApiKeyRow) (Qm Qd m um c ud now : Nat)
    (hfind : findKey st.keys h = some k)
    (hact : k.status = "active")
    (hmq : k.per_minute_quota = some Qm)
    (hminrow : usageLookup st.usageMinute (k.id, now / 60) =
      some { request_count := m, updated_at := um })
    (hmlt : m < Qm)
    (hdq : k.daily_quota = some Qd)
    (hdrow : usageLookup st.usageDaily (k.id, now / 86400) =
      some { request_count := c, updated_at := ud })
    (hcge : Qd ≤ c) :
    consume_mcp_api_request st h now =
      (consumeDailyDeniedRow k c (m + 1),
       { st with usageMinute :=
           usageSet st.usageMinute (k.id, now / 60) ⟨m + 1, now⟩ })
    ∧ storedMinuteCount (consume_mcp_api_request st h now).2 k.id (now / 60) =
        some (m + 1) := by
  have hnot : ¬ (c < Qd) := by omega
  have hmain :
      consume_mcp_api_request st h now =
        (consumeDailyDeniedRow k c (m + 1),
         { st with usageMinute :=
             usageSet st.usageMinute (k.id, now / 60) ⟨m + 1, now⟩ }) := by
    simp [consume_mcp_api_request, hfind, hact, hmq, hdq, consumeDaily,
      upsertIncrementIfBelow, hminrow, hdrow, hmlt, hnot,
      consumeDailyDeniedRow]
  refine ⟨hmain, ?_⟩
  rw [hmain]
  simp [storedMinuteCount, usageLookup_usageSet]

/-- Active key used to witness claim C3: minute quota 5 with current
minute count 3, daily quota 2 with current daily count 2. -/
def c3TestKey : ApiKeyRow :=
  { id := 13, key_name := some "c3", key_hash := "hash-c3", tier := "starter",
    status := "active", daily_quota := some 2, per_minute_quota := some 5,
    user_id := none, last_used_at := none }

/-- Witness for claim C3: the denied call reports daily count 2 and
minute count 4, and stores minute count 4 (= 3 + 1). -/
theorem consume_daily_denial_keeps_minute_charge_witness :
    consume_mcp_api_request
      ⟨[c3TestKey],
       [((c3TestKey.id, 0), { request_count := 3, updated_at := 0 })],
       [((c3TestKey.id, 0), { request_count := 2, updated_at := 0 })]⟩
      c3TestKey.key_hash 0 =
      (consumeDailyDeniedRow c3TestKey 2 4,
       ⟨[c3TestKey],
        [((c3TestKey.id, 0), { request_count := 4, updated_at := 0 })],
        [((c3TestKey.id, 0), { request_count := 2, updated_at := 0 })]⟩) := by
  have h :=
    (consume_daily_denial_keeps_minute_charge
      ⟨[c3TestKey],
       [((c3TestKey.id, 0), { request_count := 3, updated_at := 0 })],
       [((c3TestKey.id, 0), { request_count := 2, updated_at := 0 })]⟩
      c3TestKey.key_hash c3TestKey 5 2 3 0 2 0 0
      (by decide) rfl rfl (by decide) (by decide) rfl (by decide) (by decide)).1
  rw [h]
  decide

/-- Claim C5: a credential whose status differs from `active` is denied
with reason `revoked_key`; the returned row echoes the credential's
quota columns, both count fields are NULL, and the database state -
in particular both usage tables - is returned unchanged. -/
theorem consume_revoked_key_echoes_quotas (st : DBState) (h : String)
    (now : Nat) (k : ApiKeyRow)
    (hfind : findKey st.keys h = some k)
    (hrev : k.status ≠ "active") :
    consume_mcp_api_request st h now =
      ({ allowed := false, reason := "revoked_key", api_key_id := some k.id,
         key_name := k.key_name, tier := some k.tier,
         daily_quota := k.daily_quota, daily_count := none,
         per_minute_quota := k.per_minute_quota, minute_count := none }, st) := by
  simp [consume_mcp_api_request, hfind, hrev]

/-- Revoked credential with daily quota 100, the scenario credential of
claim C5. -/
def c5RevokedKey : ApiKeyRow :=
  { id := 21, key_name := some "c5", key_hash := "hash-c5", tier := "free",
    status := "revoked", daily_quota := some 100, per_minute_quota := some 20,
    user_id := none, last_used_at := none }

/-- Witness for claim C5: the revoked credential yields
`reason = revoked_key`, `daily_quota = 100` echoed, `daily_count = NULL`,
and the state is unchanged. -/
theorem consume_revoked_key_echoes_quotas_witness :
    (consume_mcp_api_request ⟨[c5RevokedKey], [], []⟩ c5RevokedKey.key_hash 0).1.reason
      = "revoked_key"
    ∧ (consume_mcp_api_request ⟨[c5RevokedKey], [], []⟩ c5RevokedKey.key_hash 0).1.daily_quota
      = some 100
    ∧ (consume_mcp_api_request ⟨[c5RevokedKey], [], []⟩ c5RevokedKey.key_hash 0).1.daily_count
      = none
    ∧ (consume_mcp_api_request ⟨[c5RevokedKey], [], []⟩ c5RevokedKey.key_hash 0).1.minute_count
      = none
    ∧ (consume_mcp_api_request ⟨[c5RevokedKey], [], []⟩ c5RevokedKey.key_hash 0).2
      = ⟨[c5RevokedKey], [], []⟩ := by
  have h := consume_revoked_key_echoes_quotas ⟨[c5RevokedKey], [], []⟩
    c5RevokedKey.key_hash 0 c5RevokedKey (by decide) (by decide)
  rw [h]
  exact ⟨rfl, rfl, rfl, rfl, rfl⟩

/-- Claim C7: revocation is a one-way, idempotent status flip.  When a
matching active key owned by the caller exists, the first
`revoke_user_api_key` call returns true (a row changed) and leaves no
key still matching the update's WHERE clause; the second call returns
false ("no change") and leaves the state exactly as after the first
call.  Moreover (last conjunct, for arbitrary calls) the function never
turns a revoked key back to active: positionally, a key stored with
status `revoked` still has status `revoked` afterwards. -/
theorem revoke_user_api_key_idempotent (st : DBState) (uid kid : Nat)
    (hex : ∃ k, k ∈ st.keys ∧ revokeHit uid kid k = true) :
    (revoke_user_api_key st uid kid).1 = true
    ∧ (∀ k, k ∈ (revoke_user_api_key st uid kid).2.keys →
        revokeHit uid kid k = false)
    ∧ (revoke_user_api_key (revoke_user_api_key st uid kid).2 uid kid).1 = false
    ∧ (revoke_user_api_key (revoke_user_api_key st uid kid).2 uid kid).2 =
        (revoke_user_api_key st uid kid).2
    ∧ (∀ st' : DBState, ∀ uid' kid' i : Nat, ∀ k1 k2 : ApiKeyRow,
        st'.keys[i]? = some k1 →
        ((revoke_user_api_key st' uid' kid').2.keys)[i]? = some k2 →
        k1.status = "revoked" → k2.status = "revoked") := by
  have hrevd : ∀ k : ApiKeyRow, revokeHit uid kid { k with status := "revoked" } = false := by
    intro k
    simp [revokeHit]
  have hnomatch : ∀ k, k ∈ (revoke_user_api_key st uid kid).2.keys →
      revokeHit uid kid k = false := by
    intro k hk
    simp only [revoke_user_api_key] at hk
    rcases List.mem_map.mp hk with ⟨k0, hk0, rfl⟩
    by_cases hh : revokeHit uid kid k0 = true
    · rw [if_pos hh]
      exact hrevd k0
    · rw [if_neg hh]
      exact Bool.eq_false_iff.mpr hh
  refine ⟨?_, hnomatch, ?_, ?_, ?_⟩
  · rcases hex with ⟨k, hk, hhit⟩
    exact List.any_eq_true.mpr ⟨k, hk, hhit⟩
  · simp only [revoke_user_api_key]
    rw [List.any_eq_false]
    intro k hk
    simp only [Bool.not_eq_true]
    exact hnomatch k hk
  · have hmap : ((revoke_user_api_key st uid kid).2.keys).map (fun k =>
        if revokeHit uid kid k then { k with status := "revoked" } else k) =
        (revoke_user_api_key st uid kid).2.keys := by
      conv_rhs => rw [← List.map_id ((revoke_user_api_key st uid kid).2.keys)]
      refine List.map_congr_left ?_
      intro k hk
      simp [hnomatch k hk]
    show { (revoke_user_api_key st uid kid).2 with
        keys := ((revoke_user_api_key st uid kid).2.keys).map (fun k =>
          if revokeHit uid kid k then { k with status := "revoked" } else k) } =
      (revoke_user_api_key st uid kid).2
    rw [hmap]
  · intro st' uid' kid' i k1 k2 h1 h2 hrev
    simp only [revoke_user_api_key, List.getElem?_map, h1, Option.map,
      Option.some.injEq] at h2
    subst h2
    by_cases hh : revokeHit uid' kid' k1 = true
    · rw [if_pos hh]
    · rw [if_neg hh]
      exact hrev

/-- Active key owned by user 1, used to witness claim C7. -/
def c7OwnedKey : ApiKeyRow :=
  { id := 5, key_name := some "c7", key_hash := "hash-c7", tier := "free",
    status := "active", daily_quota := some 100, per_minute_quota := some 20,
    user_id := some 1, last_used_at := none }

/-- Witness for claim C7: revoking the active key returns true and flips
its status; revoking again returns false and changes nothing. -/
theorem revoke_user_api_key_idempotent_witness :
    (revoke_user_api_key ⟨[c7OwnedKey], [], []⟩ 1 5).1 = true
    ∧ (revoke_user_api_key (revoke_user_api_key ⟨[c7OwnedKey], [], []⟩ 1 5).2 1 5).1
        = false
    ∧ (revoke_user_api_key (revoke_user_api_key ⟨[c7OwnedKey], [], []⟩ 1 5).2 1 5).2
        = (revoke_user_api_key ⟨[c7OwnedKey], [], []⟩ 1 5).2 := by
  have h := revoke_user_api_key_idempotent ⟨[c7OwnedKey], [], []⟩ 1 5
    ⟨c7OwnedKey, by simp, by decide⟩
  exact ⟨h.1, h.2.2.1, h.2.2.2.1⟩

/-! ## Part 2: the TypeScript authorization layer (src/auth/authorize.ts,
src/auth/apiKeys.ts) and the /mcp handler fragments of src/http.ts. -/

/-- `keyFingerprint` (src/auth/apiKeys.ts): the first 12 hex characters
of the SHA-256 digest of the key; the digest function itself is the
uninterpreted parameter `hash`. -/
def keyFingerprint (hash : String → String) (key : String) : String :=
  (hash key).take 12

/-- `isApiKeyAllowed` (src/auth/apiKeys.ts): some allowed key has the
same byte length as the candidate and `timingSafeEqual` bytes.
Extensionally, equal UTF-8 byte sequences mean equal strings; the
constant-time execution profile is outside a functional embedding. -/
def isApiKeyAllowed (candidate : String) (allowedKeys : List String) : Bool :=
  allowedKeys.any (fun key =>
    key.utf8ByteSize == candidate.utf8ByteSize && key == candidate)

/-- The `ConsumeRpcRow` type of authorize.ts (ids are strings, counts
are JS numbers, idealized `Int`). -/
structure ConsumeRpcRow where
  allowed : Bool
  reason : String
  api_key_id : Option String
  key_name : Option String
  tier : Option String
  daily_quota : Option Int
  daily_count : Option Int
  per_minute_quota : Option Int
  minute_count : Option Int
deriving Repr, DecidableEq

/-- `ApiKeyContext` of authorize.ts; `source` is the literal union
`"db" | "env"`. -/
structure ApiKeyContext where
  keyId : String
  keyName : Option String
  tier : String
  fingerprint : String
  source : String
  dailyQuota : Option Int
  dailyCount : Option Int
  minuteQuota : Option Int
  minuteCount : Option Int
  dailyRemaining : Option Int
  minuteRemaining : Option Int
deriving Repr, DecidableEq

/-- `ApiAuthError` of authorize.ts; the optional `retryAfterSec` is an
`Option`. -/
structure ApiAuthError where
  httpStatus : Nat
  jsonRpcCode : Int
  message : String
  retryAfterSec : Option Nat
deriving Repr, DecidableEq

/-- `AuthResult` of authorize.ts. -/
inductive AuthResult where
  | ok (context : ApiKeyContext)
  | err (error : ApiAuthError)
deriving Repr, DecidableEq

/-- `remaining` (authorize.ts): null when quota or count is null,
otherwise `Math.max(0, quota - count)`. -/
def remaining (quota count : Option Int) : Option Int :=
  match quota, count with
  | some q, some c => some (max 0 (q - c))
  | _, _ => none

/-- `normalizeTier` (authorize.ts): trim + lower-case, empty (or null)
defaults to "free". -/
def normalizeTier (value : Option String) : String :=
  let raw := ((value.getD "").trim).toLower
  if raw = "" then "free" else raw

/-- `mapRpcRejection` (authorize.ts): the fixed rejection-to-transport
mapping; the `invalid_key` and `revoked_key` switch cases share one arm
with the `default` arm's value. -/
def mapRpcRejection (reason : String) : ApiAuthError :=
  if reason = "invalid_key" ∨ reason = "revoked_key" then
    { httpStatus := 403, jsonRpcCode := -32003,
      message := "Invalid API key.", retryAfterSec := none }
  else if reason = "minute_limit_exceeded" then
    { httpStatus := 429, jsonRpcCode := -32029,
      message := "Per-minute rate limit exceeded.", retryAfterSec := some 60 }
  else if reason = "daily_limit_exceeded" then
    { httpStatus := 429, jsonRpcCode := -32029,
      message := "Daily API quota exceeded.", retryAfterSec := some 3600 }
  else
    { httpStatus := 403, jsonRpcCode := -32003,
      message := "Invalid API key.", retryAfterSec := none }

/-- Substring containment on character lists: some suffix of `l` starts
with `pat`. -/
def charsContain (l pat : List Char) : Bool :=
  match l with
  | [] => pat.isEmpty
  | c :: cs => pat.isPrefixOf (c :: cs) || charsContain cs pat

/-- JS `String.prototype.includes`: `s` contains `pat` as a contiguous
substring. -/
def strIncludes (s pat : String) : Bool :=
  charsContain s.toList pat.toList

/-- `isRpcMissing` (authorize.ts): the "store not provisioned" error
signature. -/
def isRpcMissing (errorMessage : String) : Bool :=
  strIncludes errorMessage "Could not find the function"
  || strIncludes errorMessage "does not exist"
  || strIncludes errorMessage "function public.consume_mcp_api_request"

/-- The 403 "Invalid API key." error value used by authorize.ts for
missing rows, RPC rejections without a dedicated arm, and failed env
fallback. -/
def invalidKeyError : ApiAuthError :=
  { httpStatus := 403, jsonRpcCode := -32003,
    message := "Invalid API key.", retryAfterSec := none }

/-- The 500 backend-unavailable error value of authorize.ts. -/
def backendUnavailableError : ApiAuthError :=
  { httpStatus := 500, jsonRpcCode := -32603,
    message := "API key validation backend is unavailable. Run DB migration for consume_mcp_api_request().",
    retryAfterSec := none }

/-- `buildEnvContext` (authorize.ts): the untracked env-fallback
identity - no quota or count fields. -/
def buildEnvContext (hash : String → String) (apiKey : String) : ApiKeyContext :=
  { keyId := "env", keyName := some "env-fallback", tier := "free",
    fingerprint := keyFingerprint hash apiKey, source := "env",
    dailyQuota := none, dailyCount := none, minuteQuota := none,
    minuteCount := none, dailyRemaining := none, minuteRemaining := none }

/-- The admitted db-path context of authorize.ts
(`row.api_key_id || "unknown"` is JS truthiness: null and the empty
string both fall back to "unknown"). -/
def buildDbContext (hash : String → String) (apiKey : String)
    (row : ConsumeRpcRow) : ApiKeyContext :=
  { keyId := match row.api_key_id with
      | some s => if s = "" then "unknown" else s
      | none => "unknown",
    keyName := row.key_name, tier := normalizeTier row.tier,
    fingerprint := keyFingerprint hash apiKey, source := "db",
    dailyQuota := row.daily_quota, dailyCount := row.daily_count,
    minuteQuota := row.per_minute_quota, minuteCount := row.minute_count,
    dailyRemaining := remaining row.daily_quota row.daily_count,
    minuteRemaining := remaining row.per_minute_quota row.minute_count }

/-- The inputs of `authorizeApiKey` except the Supabase client. -/
structure AuthOptions where
  apiKey : String
  useDbKeys : Bool
  allowEnvFallback : Bool
  envKeys : List String
deriving Repr, DecidableEq

/-- Outcome of the `supabase.rpc("consume_mcp_api_request", ...)` call:
a backend error carrying its message, or `data` rows.  A non-array
`data` behaves exactly like an empty row list (in both cases the handler
sees `row = null`), so rows suffice. -/
inductive RpcOutcome where
  | rpcError (message : String)
  | rpcData (rows : List ConsumeRpcRow)
deriving Repr, DecidableEq

/-- `authorizeApiKey` (authorize.ts).  The network call is the `rpc`
parameter; the db phase either settles the result (`some r`) or falls
through (`none`) to the env-fallback section, exactly as the early
returns of the source do. -/
def authorizeApiKey (hash : String → String) (o : AuthOptions)
    (rpc : RpcOutcome) : AuthResult :=
  let dbPhase : Option AuthResult :=
    if o.useDbKeys then
      match rpc with
      | .rpcData rows =>
        match rows.head? with
        | none => some (.err invalidKeyError)
        | some row =>
          if !row.allowed then some (.err (mapRpcRejection row.reason))
          else some (.ok (buildDbContext hash o.apiKey row))
      | .rpcError msg =>
        if !o.allowEnvFallback || !isRpcMissing msg then
          some (.err backendUnavailableError)
        else
          none
    else none
  match dbPhase with
  | some r => r
  | none =>
    if o.allowEnvFallback && isApiKeyAllowed o.apiKey o.envKeys then
      .ok (buildEnvContext hash o.apiKey)
    else
      .err invalidKeyError

/-- The fields of a `sessions` map entry (http.ts) read by the
handlers. -/
structure SessionContext where
  apiKeyFingerprint : String
  apiKeyId : String
  apiKeyTier : String
deriving Repr, DecidableEq

/-- `sessions.get(sessionId)`. -/
def lookupSession (sessions : List (String × SessionContext)) (sid : String) :
    Option SessionContext :=
  (sessions.find? (fun e => e.1 == sid)).map (fun e => e.2)

/-- JS `a || b` for an optional string: `b` when `a` is absent or
empty. -/
def jsStringOr (a : Option String) (b : String) : String :=
  match a with
  | some s => if s = "" then b else s
  | none => b

/-- The session entry written by the `StreamableHTTPServerTransport`
session-init callback in `app.post("/mcp")`: the authorizing request's
fingerprint/id/tier with "anonymous"/"free" defaults. -/
def bindSession (reqFingerprint reqApiKeyId reqApiKeyTier : Option String) :
    SessionContext :=
  { apiKeyFingerprint := jsStringOr reqFingerprint "anonymous",
    apiKeyId := jsStringOr reqApiKeyId "anonymous",
    apiKeyTier := jsStringOr reqApiKeyTier "free" }

/-- What `app.post("/mcp")` decides to do with a request (transport
effects abstracted into a decision value). -/
inductive McpPostOutcome where
  | unknownSession
  | sessionMismatch
  | forwarded (sessionId : String)
  | needsInit
  | newSession
deriving Repr, DecidableEq

/-- The control flow of `app.post("/mcp")` up to the transport
hand-off: session lookup, the session/credential fingerprint
consistency check, and the initialize-request gate when no session id is
present.  `reqFingerprint` is `req.apiKeyFingerprint` (`none` when the
auth middleware did not set it; JS truthiness also skips the check for
an empty string). -/
def handleMcpPost (requireApiKey : Bool)
    (sessions : List (String × SessionContext)) (sessionId : Option String)
    (reqFingerprint : Option String) (bodyIsInitRequest : Bool) :
    McpPostOutcome :=
  match sessionId with
  | some sid =>
    match lookupSession sessions sid with
    | none => .unknownSession
    | some ctx =>
      match reqFingerprint with
      | some f =>
        if requireApiKey && !(f == "") && !(ctx.apiKeyFingerprint == f) then
          .sessionMismatch
        else
          .forwarded sid
      | none => .forwarded sid
  | none => if bodyIsInitRequest then .newSession else .needsInit

/-- The `sendJsonRpcError` triple (HTTP status, JSON-RPC code, message)
each non-forwarded outcome of `app.post("/mcp")` produces. -/
def mcpPostErrorResponse : McpPostOutcome → Option (Nat × Int × String)
  | .unknownSession => some (404, -32004, "Unknown session ID.")
  | .sessionMismatch => some (403, -32003, "Session not valid for this API key.")
  | .forwarded _ => none
  | .needsInit =>
    some (400, -32000, "Initialize request required when no session ID is present.")
  | .newSession => none

/-- The `X-RateLimit-*` / tier / source headers the `/mcp` auth
middleware sets after a successful authorization (http.ts), in source
order; each quota/remaining header is set only when the field is
non-null. -/
def rateLimitHeaders (ctx : ApiKeyContext) : List (String × String) :=
  (match ctx.dailyQuota with
   | some q => [("X-RateLimit-Daily-Limit", toString q)]
   | none => [])
  ++ (match ctx.dailyRemaining with
   | some r => [("X-RateLimit-Daily-Remaining", toString r)]
   | none => [])
  ++ (match ctx.minuteQuota with
   | some q => [("X-RateLimit-Minute-Limit", toString q)]
   | none => [])
  ++ (match ctx.minuteRemaining with
   | some r => [("X-RateLimit-Minute-Remaining", toString r)]
   | none => [])
  ++ [("X-API-Key-Tier", ctx.tier), ("X-API-Key-Source", ctx.source)]

/-- Claim C4: on a backend error, the env-fallback key match is reached
only when fallback is enabled and the message matches the
not-provisioned signature; any other backend error - and a
not-provisioned error with fallback disabled - yields the HTTP 500
backend-unavailable denial, never an admitted fallback identity. -/
theorem authorize_backend_error_fails_closed (hash : String → String)
    (o : AuthOptions) (msg : String)
    (hdb : o.useDbKeys = true) :
    (o.allowEnvFallback = false ∨ isRpcMissing msg = false →
      authorizeApiKey hash o (.rpcError msg) = .err backendUnavailableError)
    ∧ (o.allowEnvFallback = true → isRpcMissing msg = true →
      authorizeApiKey hash o (.rpcError msg) =
        if isApiKeyAllowed o.apiKey o.envKeys then
          .ok (buildEnvContext hash o.apiKey)
        else
          .err invalidKeyError) := by
  constructor
  · intro hcase
    rcases hcase with hfb | hmiss
    · simp [authorizeApiKey, hdb, hfb]
    · simp [authorizeApiKey, hdb, hmiss]
  · intro hfb hmiss
    by_cases hallow : isApiKeyAllowed o.apiKey o.envKeys
    · simp [authorizeApiKey, hdb, hfb, hmiss, hallow]
    · simp [authorizeApiKey, hdb, hfb, hmiss, hallow]

/-- Options with the db path and env fallback both enabled, and an env
key list that would match the presented key - so a wrongly-taken
fallback path would admit. -/
def envEnabledOptions : AuthOptions :=
  { apiKey := "nlt_abc", useDbKeys := true, allowEnvFallback := true,
    envKeys := ["nlt_abc"] }

/-- Witness for claim C4: a generic backend fault with fallback enabled
(and a matchable env key) still yields the 500 denial. -/
theorem authorize_backend_error_fails_closed_witness :
    authorizeApiKey (fun s => s) envEnabledOptions
      (.rpcError "connection reset by peer") = .err backendUnavailableError := by
  exact (authorize_backend_error_fails_closed (fun s => s) envEnabledOptions
    "connection reset by peer" rfl).1 (Or.inr (by decide))

/-- Claim C6: every rejected authorization follows the fixed transport
mapping: a denied RPC row maps through `mapRpcRejection`, whose values
are 403/no-retry for `invalid_key` and `revoked_key`, 429/60s for
`minute_limit_exceeded`, 429/3600s for `daily_limit_exceeded`; a
non-not-provisioned backend error maps to the 500/no-retry backend
error. -/
theorem authorize_rejection_transport_mapping (hash : String → String)
    (o : AuthOptions) (rows : List ConsumeRpcRow) (row : ConsumeRpcRow)
    (hdb : o.useDbKeys = true)
    (hhead : rows.head? = some row)
    (hdeny : row.allowed = false) :
    authorizeApiKey hash o (.rpcData rows) = .err (mapRpcRejection row.reason)
    ∧ mapRpcRejection "invalid_key" =
        { httpStatus := 403, jsonRpcCode := -32003,
          message := "Invalid API key.", retryAfterSec := none }
    ∧ mapRpcRejection "revoked_key" =
        { httpStatus := 403, jsonRpcCode := -32003,
          message := "Invalid API key.", retryAfterSec := none }
    ∧ mapRpcRejection "minute_limit_exceeded" =
        { httpStatus := 429, jsonRpcCode := -32029,
          message := "Per-minute rate limit exceeded.", retryAfterSec := some 60 }
    ∧ mapRpcRejection "daily_limit_exceeded" =
        { httpStatus := 429, jsonRpcCode := -32029,
          message := "Daily API quota exceeded.", retryAfterSec := some 3600 }
    ∧ (∀ msg, isRpcMissing msg = false →
        authorizeApiKey hash o (.rpcError msg) = .err backendUnavailableError)
    ∧ backendUnavailableError.httpStatus = 500
    ∧ backendUnavailableError.retryAfterSec = none := by
  refine ⟨?_, by decide, by decide, by decide, by decide, ?_, rfl, rfl⟩
  · simp [authorizeApiKey, hdb, hhead, hdeny]
  · intro msg hmiss
    simp [authorizeApiKey, hdb, hmiss]

/-- A denied RPC row with reason `minute_limit_exceeded`, used to
witness claim C6. -/
def c6DeniedRow : ConsumeRpcRow :=
  { allowed := false, reason := "minute_limit_exceeded",
    api_key_id := some "id-1", key_name := some "k", tier := some "free",
    daily_quota := some 100, daily_count := none,
    per_minute_quota := some 20, minute_count := some 20 }

/-- Witness for claim C6: a minute-limit RPC denial surfaces as the
429/retry-60 error. -/
theorem authorize_rejection_transport_mapping_witness :
    authorizeApiKey (fun s => s) envEnabledOptions (.rpcData [c6DeniedRow]) =
      .err { httpStatus := 429, jsonRpcCode := -32029,
             message := "Per-minute rate limit exceeded.",
             retryAfterSec := some 60 } := by
  have h := authorize_rejection_transport_mapping (fun s => s)
    envEnabledOptions [c6DeniedRow] c6DeniedRow rfl rfl rfl
  rw [h.1]
  decide

/-- Claim C10: `invalid_key`, `revoked_key`, and every unrecognized
rejection reason produce the identical 403 (code -32003) "Invalid API key."
error with no retry hint, so the transport error surface cannot
distinguish a nonexistent key from a revoked one, and unknown reasons
fail closed to the same value. -/
theorem mapRpcRejection_indistinguishable :
    mapRpcRejection "invalid_key" = invalidKeyError
    ∧ mapRpcRejection "revoked_key" = invalidKeyError
    ∧ (∀ reason : String, reason ≠ "minute_limit_exceeded" →
        reason ≠ "daily_limit_exceeded" →
        mapRpcRejection reason = invalidKeyError)
    ∧ invalidKeyError.httpStatus = 403
    ∧ invalidKeyError.jsonRpcCode = -32003
    ∧ invalidKeyError.message = "Invalid API key."
    ∧ invalidKeyError.retryAfterSec = none := by
  refine ⟨by decide, by decide, ?_, rfl, rfl, rfl, rfl⟩
  intro r h1 h2
  unfold mapRpcRejection invalidKeyError
  by_cases hik : r = "invalid_key" ∨ r = "revoked_key"
  · rw [if_pos hik]
  · rw [if_neg hik, if_neg h1, if_neg h2]

/-- Witness for claim C10: an unrecognized reason string maps to the
same error value as `invalid_key`. -/
theorem mapRpcRejection_indistinguishable_witness :
    mapRpcRejection "quota_service_on_fire" = invalidKeyError := by
  exact mapRpcRejection_indistinguishable.2.2.1 "quota_service_on_fire"
    (by decide) (by decide)

/-- Inversion for admitted authorizations: every `ok` context produced
by `authorizeApiKey` is either the db context built from some RPC row or
the env-fallback context. -/
theorem authorize_ok_shape (hash : String → String) (o : AuthOptions)
    (rpc : RpcOutcome) (ctx : ApiKeyContext)
    (hok : authorizeApiKey hash o rpc = .ok ctx) :
    (∃ row : ConsumeRpcRow, ctx = buildDbContext hash o.apiKey row)
    ∨ ctx = buildEnvContext hash o.apiKey := by
  rcases rpc with msg | rows
  · by_cases hdb : o.useDbKeys
      <;> by_cases hfb : o.allowEnvFallback
      <;> by_cases hmiss : isRpcMissing msg
      <;> by_cases hallow : isApiKeyAllowed o.apiKey o.envKeys
      <;> simp only [authorizeApiKey, hdb, hfb, hmiss, hallow,
            Bool.not_true, Bool.not_false, Bool.false_or, Bool.true_or,
            Bool.or_self, Bool.true_and, Bool.false_and, Bool.and_self,
            if_true, if_false, reduceCtorEq, AuthResult.ok.injEq,
            Bool.true_eq_false, Bool.false_eq_true] at hok
      <;> exact Or.inr hok.symm
  · cases rows with
    | nil =>
      by_cases hdb : o.useDbKeys
        <;> by_cases hfb : o.allowEnvFallback
        <;> by_cases hallow : isApiKeyAllowed o.apiKey o.envKeys
        <;> simp only [authorizeApiKey, hdb, hfb, hallow, List.head?_nil,
              Bool.true_and, Bool.false_and, if_true, if_false,
              reduceCtorEq, AuthResult.ok.injEq] at hok
        <;> exact Or.inr hok.symm
    | cons row rest =>
      by_cases hdb : o.useDbKeys
      · by_cases hal : row.allowed
        · refine Or.inl ⟨row, ?_⟩
          simp only [authorizeApiKey, hdb, if_true, List.head?_cons, hal,
            Bool.not_true, Bool.false_eq_true, if_false,
            AuthResult.ok.injEq] at hok
          exact hok.symm
        · simp only [Bool.not_eq_true] at hal
          simp only [authorizeApiKey, hdb, if_true, List.head?_cons, hal,
            Bool.not_false, if_true, reduceCtorEq] at hok
      · by_cases hfb : o.allowEnvFallback
          <;> by_cases hallow : isApiKeyAllowed o.apiKey o.envKeys
          <;> simp only [authorizeApiKey, hdb, hfb, hallow,
                Bool.true_and, Bool.false_and, if_true, if_false,
                reduceCtorEq, AuthResult.ok.injEq] at hok
          <;> exact Or.inr hok.symm

/-- Both admitted context shapes compute their remaining fields with
`remaining` from their own quota/count fields. -/
theorem authorize_ok_remaining_fields (hash : String → String)
    (o : AuthOptions) (rpc : RpcOutcome) (ctx : ApiKeyContext)
    (hok : authorizeApiKey hash o rpc = .ok ctx) :
    ctx.dailyRemaining = remaining ctx.dailyQuota ctx.dailyCount
    ∧ ctx.minuteRemaining = remaining ctx.minuteQuota ctx.minuteCount := by
  rcases authorize_ok_shape hash o rpc ctx hok with ⟨row, rfl⟩ | rfl
  · exact ⟨rfl, rfl⟩
  · exact ⟨rfl, rfl⟩

theorem rateLimitHeaders_daily_remaining_mem (ctx : ApiKeyContext) (r : Int)
    (h : ctx.dailyRemaining = some r) :
    ("X-RateLimit-Daily-Remaining", toString r) ∈ rateLimitHeaders ctx := by
  simp [rateLimitHeaders, h]

theorem rateLimitHeaders_minute_remaining_mem (ctx : ApiKeyContext) (r : Int)
    (h : ctx.minuteRemaining = some r) :
    ("X-RateLimit-Minute-Remaining", toString r) ∈ rateLimitHeaders ctx := by
  simp [rateLimitHeaders, h]

theorem rateLimitHeaders_daily_absent (ctx : ApiKeyContext)
    (hq : ctx.dailyQuota = none) (hr : ctx.dailyRemaining = none) (v : String) :
    ("X-RateLimit-Daily-Limit", v) ∉ rateLimitHeaders ctx
    ∧ ("X-RateLimit-Daily-Remaining", v) ∉ rateLimitHeaders ctx := by
  cases hmq : ctx.minuteQuota
    <;> cases hmr : ctx.minuteRemaining
    <;> simp [rateLimitHeaders, hq, hr, hmq, hmr]

theorem rateLimitHeaders_minute_absent (ctx : ApiKeyContext)
    (hq : ctx.minuteQuota = none) (hr : ctx.minuteRemaining = none) (v : String) :
    ("X-RateLimit-Minute-Limit", v) ∉ rateLimitHeaders ctx
    ∧ ("X-RateLimit-Minute-Remaining", v) ∉ rateLimitHeaders ctx := by
  cases hdq : ctx.dailyQuota
    <;> cases hdr : ctx.dailyRemaining
    <;> simp [rateLimitHeaders, hq, hr, hdq, hdr]

/-- Claim C9: for every admitted authorization, the remaining-quota
values are `max 0 (quota - count)` in exact integer arithmetic whenever
the quota is finite and the count present, and the corresponding header
is then attached; when a window's quota is unlimited both its limit and
remaining headers are omitted; remaining values are never negative. -/
theorem admitted_remaining_headers (hash : String → String) (o : AuthOptions)
    (rpc : RpcOutcome) (ctx : ApiKeyContext)
    (hok : authorizeApiKey hash o rpc = .ok ctx) :
    (∀ q c, ctx.dailyQuota = some q → ctx.dailyCount = some c →
      ctx.dailyRemaining = some (max 0 (q - c))
      ∧ ("X-RateLimit-Daily-Remaining", toString (max 0 (q - c))) ∈
          rateLimitHeaders ctx)
    ∧ (∀ q c, ctx.minuteQuota = some q → ctx.minuteCount = some c →
      ctx.minuteRemaining = some (max 0 (q - c))
      ∧ ("X-RateLimit-Minute-Remaining", toString (max 0 (q - c))) ∈
          rateLimitHeaders ctx)
    ∧ (ctx.dailyQuota = none → ∀ v,
      ("X-RateLimit-Daily-Limit", v) ∉ rateLimitHeaders ctx
      ∧ ("X-RateLimit-Daily-Remaining", v) ∉ rateLimitHeaders ctx)
    ∧ (ctx.minuteQuota = none → ∀ v,
      ("X-RateLimit-Minute-Limit", v) ∉ rateLimitHeaders ctx
      ∧ ("X-RateLimit-Minute-Remaining", v) ∉ rateLimitHeaders ctx)
    ∧ (∀ r, ctx.dailyRemaining = some r → 0 ≤ r)
    ∧ (∀ r, ctx.minuteRemaining = some r → 0 ≤ r) := by
  obtain ⟨hd, hm⟩ := authorize_ok_remaining_fields hash o rpc ctx hok
  refine ⟨?_, ?_, ?_, ?_, ?_, ?_⟩
  · intro q c hq hc
    have hr : ctx.dailyRemaining = some (max 0 (q - c)) := by
      rw [hd, hq, hc, remaining]
    exact ⟨hr, rateLimitHeaders_daily_remaining_mem ctx _ hr⟩
  · intro q c hq hc
    have hr : ctx.minuteRemaining = some (max 0 (q - c)) := by
      rw [hm, hq, hc, remaining]
    exact ⟨hr, rateLimitHeaders_minute_remaining_mem ctx _ hr⟩
  · intro hq v
    have hr : ctx.dailyRemaining = none := by
      rw [hd, hq]
      cases ctx.dailyCount <;> rfl
    exact rateLimitHeaders_daily_absent ctx hq hr v
  · intro hq v
    have hr : ctx.minuteRemaining = none := by
      rw [hm, hq]
      cases ctx.minuteCount <;> rfl
    exact rateLimitHeaders_minute_absent ctx hq hr v
  · intro r hr
    rw [hd] at hr
    cases hq : ctx.dailyQuota <;> cases hc : ctx.dailyCount
      <;> rw [hq, hc] at hr <;> simp [remaining] at hr
    exact hr ▸ le_max_left 0 _
  · intro r hr
    rw [hm] at hr
    cases hq : ctx.minuteQuota <;> cases hc : ctx.minuteCount
      <;> rw [hq, hc] at hr <;> simp [remaining] at hr
    exact hr ▸ le_max_left 0 _

/-- An admitted RPC row (daily quota 100 with count 40, unlimited minute
quota), used to witness claim C9. -/
def c9AllowedRow : ConsumeRpcRow :=
  { allowed := true, reason := "ok", api_key_id := some "id-9",
    key_name := some "k9", tier := some "free", daily_quota := some 100,
    daily_count := some 40, per_minute_quota := none, minute_count := some 3 }

/-- Witness for claim C9: the admitted context carries
`dailyRemaining = 60` with its header attached, and the minute headers
are omitted because the minute quota is unlimited. -/
theorem admitted_remaining_headers_witness :
    (authorizeApiKey (fun s => s) envEnabledOptions (.rpcData [c9AllowedRow]) =
      .ok (buildDbContext (fun s => s) "nlt_abc" c9AllowedRow))
    ∧ (buildDbContext (fun s => s) "nlt_abc" c9AllowedRow).dailyRemaining =
        some (max 0 ((100 : Int) - 40))
    ∧ ("X-RateLimit-Daily-Remaining", toString (max 0 ((100 : Int) - 40))) ∈
        rateLimitHeaders (buildDbContext (fun s => s) "nlt_abc" c9AllowedRow)
    ∧ ("X-RateLimit-Minute-Limit", "20") ∉
        rateLimitHeaders (buildDbContext (fun s => s) "nlt_abc" c9AllowedRow) := by
  have hok : authorizeApiKey (fun s => s) envEnabledOptions
      (.rpcData [c9AllowedRow]) =
      .ok (buildDbContext (fun s => s) "nlt_abc" c9AllowedRow) := rfl
  have h := admitted_remaining_headers (fun s => s) envEnabledOptions
    (.rpcData [c9AllowedRow]) (buildDbContext (fun s => s) "nlt_abc" c9AllowedRow)
    hok
  refine ⟨hok, ?_, ?_, ?_⟩
  · exact (h.1 100 40 rfl rfl).1
  · exact (h.1 100 40 rfl rfl).2
  · exact ((h.2.2.2.1 rfl) "20").1

/-- Claim C8: a request carrying a session id whose stored binding has
fingerprint `f`, made under required API-key auth and independently
authorized with fingerprint `f' ≠ f` (non-empty), is rejected with the
403 "Session not valid for this API key." error and is never forwarded
to the session's transport; with `f' = f` it is forwarded. -/
theorem session_fingerprint_mismatch_rejected
    (sessions : List (String × SessionContext)) (sid : String)
    (ctx : SessionContext) (f f' : String) (bodyIsInitRequest : Bool)
    (hlook : lookupSession sessions sid = some ctx)
    (hbound : ctx.apiKeyFingerprint = f)
    (hne : f' ≠ "") :
    (f' ≠ f →
      handleMcpPost true sessions (some sid) (some f') bodyIsInitRequest =
        .sessionMismatch
      ∧ mcpPostErrorResponse
          (handleMcpPost true sessions (some sid) (some f') bodyIsInitRequest) =
          some (403, -32003, "Session not valid for this API key.")
      ∧ (∀ s, handleMcpPost true sessions (some sid) (some f') bodyIsInitRequest ≠
          .forwarded s))
    ∧ (f' = f →
      handleMcpPost true sessions (some sid) (some f') bodyIsInitRequest =
        .forwarded sid) := by
  constructor
  · intro hdiff
    have hmain : handleMcpPost true sessions (some sid) (some f')
        bodyIsInitRequest = .sessionMismatch := by
      have hnef : ¬ (ctx.apiKeyFingerprint == f') = true := by
        simp [hbound]
        exact fun hc => hdiff hc.symm
      simp [handleMcpPost, hlook, hne, hnef]
    refine ⟨hmain, ?_, ?_⟩
    · rw [hmain]
      rfl
    · intro s
      rw [hmain]
      simp
  · intro heq
    subst heq
    simp [handleMcpPost, hlook, hbound]

/-- The session context bound to fingerprint "fpA", used to witness
claim C8. -/
def c8BoundSession : SessionContext :=
  { apiKeyFingerprint := "fpA", apiKeyId := "id-a", apiKeyTier := "free" }

/-- Witness for claim C8: with a session bound to fingerprint "fpA", a
request authorized as "fpB" is rejected with the 403 mismatch error,
and a request authorized as "fpA" is forwarded. -/
theorem session_fingerprint_mismatch_rejected_witness :
    handleMcpPost true [("s1", c8BoundSession)] (some "s1") (some "fpB") false =
      .sessionMismatch
    ∧ mcpPostErrorResponse (handleMcpPost true [("s1", c8BoundSession)]
        (some "s1") (some "fpB") false) =
        some (403, -32003, "Session not valid for this API key.")
    ∧ handleMcpPost true [("s1", c8BoundSession)] (some "s1") (some "fpA") false =
      .forwarded "s1" := by
  have h := session_fingerprint_mismatch_rejected [("s1", c8BoundSession)]
    "s1" c8BoundSession "fpA" "fpB" false rfl rfl (by decide)
  have h2 := session_fingerprint_mismatch_rejected [("s1", c8BoundSession)]
    "s1" c8BoundSession "fpA" "fpA" false rfl rfl (by decide)
  exact ⟨(h.1 (by decide)).1, (h.1 (by decide)).2.1, h2.2 rfl⟩
